import Mathlib

/-!
# A verification model of the Yu evaluator

Shallow embedding of `src/eval.rs` (the `Evaluator`) together with the
expression and environment data model it relies on.  The evaluator source is
translated function by function; the expression model (`ast.rs`) and the
environment frames (`env.rs`) are not part of the provided sources, so those
two components are modelled from the specification (§3, §4.1, §4.2), which
describes them operation by operation.

Rust's `Frame` is a shared mutable object (`clone` shares, `set` mutates the
shared object, a closure captures the live frame).  We model this with an
explicit heap: frames live in a list indexed by allocation order, a "frame
reference" is the index, and the evaluator state is the heap plus the index
of the current frame.  `f64` is modelled by an abstract carrier `N` equipped
with the four total arithmetic operations and a zero, exactly the interface
the evaluator uses; instantiating `N` with IEEE doubles recovers the float
semantics, and witnesses instantiate `N := ℤ` to compute.

Recursion in the Rust evaluator is unbounded, so every evaluator function
takes a fuel argument and answers `none` when it runs out; `some r` results
are what the Rust code returns (and errors carry the state at the moment of
failure, matching `?`-propagation through `&mut self`).
-/

namespace Yu

/-- The four arithmetic operators (`ast.rs`, modelled from the spec §3:
`Operator(Add|Sub|Mul|Div)`). -/
inductive Operator where
  | add
  | sub
  | mul
  | div
deriving DecidableEq, Repr

/-- Built-in tags (modelled from the spec §3:
`Begin | Define | Function | Quote | Operator(..)`). -/
inductive Native where
  | begin
  | define
  | function
  | quote
  | operator (op : Operator)
deriving DecidableEq, Repr

mutual

/-- Modelled from the spec §3: `Expr` is `Atom(Atom)` or `List(List)`. -/
inductive Expr (N : Type) where
  | atom (a : Atom N)
  | list (l : SList N)

/-- Modelled from the spec §3: atoms are numbers, symbols, functions and
native tags. -/
inductive Atom (N : Type) where
  | number (x : N)
  | symbol (s : String)
  | func (f : Func N)
  | native (n : Native)

/-- Modelled from the spec §3: a closure holds the captured frame (here, by
heap index, since frames are shared), the parameter names in order, and the
body expression. -/
inductive Func (N : Type) where
  | mk (frame : Nat) (parameters : List String) (body : Expr N)

/-- Modelled from the spec §3: the persistent cons list (`Nil`/`Cons`). -/
inductive SList (N : Type) where
  | nil
  | cons (head : Expr N) (tail : SList N)

end

deriving instance DecidableEq for Expr, Atom, Func, SList

namespace Func

/-- The captured frame of a closure (heap index). -/
def frame : Func N → Nat
  | .mk fr _ _ => fr

/-- The parameter names of a closure. -/
def parameters : Func N → List String
  | .mk _ ps _ => ps

/-- The body of a closure. -/
def body : Func N → Expr N
  | .mk _ _ b => b

end Func

namespace SList

/-- Modelled from the spec §4.1: list length. -/
def length : SList N → Nat
  | .nil => 0
  | .cons _ t => t.length + 1

/-- Modelled from the spec §4.1: conversion to an ordered sequence,
head to tail. -/
def toList : SList N → List (Expr N)
  | .nil => []
  | .cons h t => h :: t.toList

end SList

/-- Modelled from the spec §3/§4.2: a frame is a mapping from names to
expressions plus an optional parent reference.  The mapping is kept as an
association list whose most recent insertion comes first, which realises
insert-or-overwrite lookup behaviour. -/
structure Frame (N : Type) where
  bindings : List (String × Expr N)
  parent : Option Nat

/-- Modelled from the spec §4.2: `new()` — empty frame, no parent. -/
def Frame.new : Frame N := ⟨[], none⟩

/-- Modelled from the spec §4.2: `with_parent(p)` — empty frame whose parent
is `p`. -/
def Frame.withParent (p : Nat) : Frame N := ⟨[], some p⟩

/-- Lookup in a single frame's own bindings (most recent insertion wins). -/
def Frame.getLocal (fr : Frame N) (name : String) : Option (Expr N) :=
  match fr.bindings.find? (fun b => b.1 == name) with
  | some b => some b.2
  | none => none

/-- Modelled from the spec §4.2: `set(name, value)` inserts or overwrites in
this frame only. -/
def Frame.set (fr : Frame N) (name : String) (v : Expr N) : Frame N :=
  { fr with bindings := (name, v) :: fr.bindings }

/-- The evaluator's state: the frame heap (indexed by allocation order) and
the index of the current frame.  This makes Rust's shared mutable `Frame`
(`Rc`-style `clone`) explicit: cloning a frame reference copies the index,
mutation updates the heap entry. -/
structure EvalState (N : Type) where
  frames : List (Frame N)
  current : Nat

/-- The parent-chain walk of `get(name)`, bounded by a step count.  In every
reachable state a frame's parent was allocated before it, so the walk
descends in the heap index; the `p < id` guard makes the walk total on
arbitrary states, and `id + 1` steps always suffice under that guard. -/
def lookupChain (frames : List (Frame N)) :
    Nat → Nat → String → Option (Expr N)
  | 0, _, _ => none
  | steps + 1, id, name =>
    match frames.get? id with
    | none => none
    | some fr =>
      match fr.getLocal name with
      | some v => some v
      | none =>
        match fr.parent with
        | some p => if p < id then lookupChain frames steps p name else none
        | none => none

/-- Modelled from the spec §4.2: `get(name)` walks from the frame `id` up
through parents, returning the first binding found. -/
def EvalState.lookup (σ : EvalState N) (id : Nat) (name : String) :
    Option (Expr N) :=
  lookupChain σ.frames (id + 1) id name

/-- Rust `self.frame.set(..)`: mutate the current frame in the heap. -/
def EvalState.setCurrent (σ : EvalState N) (name : String) (v : Expr N) :
    EvalState N :=
  match σ.frames.get? σ.current with
  | none => σ
  | some fr => { σ with frames := σ.frames.set σ.current (fr.set name v) }

/-- Rust `self.frame = Frame::with_parent(p)`: allocate a fresh child frame with
parent `p` and make it current.  Answers the new state and the child's id. -/
def EvalState.pushFrame (σ : EvalState N) (p : Nat) : EvalState N × Nat :=
  ({ frames := σ.frames ++ [Frame.withParent p], current := σ.frames.length },
   σ.frames.length)

/-- The evaluator's error type (`EvalError` in `eval.rs`). -/
inductive EvalError where
  | InvalidType
  | WrongArity
  | UndefinedSymbol (s : String)
  | NotCallable
deriving DecidableEq, Repr

deriving instance DecidableEq for Frame, EvalState

deriving instance DecidableEq for Except

/-- A fuelled evaluator result: the state after the call, and `none` when
fuel ran out, otherwise the `Result` the Rust function returns. -/
abbrev Res (N : Type) (α : Type) := EvalState N × Option (Except EvalError α)

/-- Rust's `?` on a `Res`: errors and fuel exhaustion propagate, keeping the
state at the moment of failure (the `&mut self` state is not rolled back). -/
def resBind (r : Res N α) (k : EvalState N → α → Res N β) : Res N β :=
  match r with
  | (σ, some (.ok v)) => k σ v
  | (σ, some (.error e)) => (σ, some (.error e))
  | (σ, none) => (σ, none)

section Evaluator

variable {N : Type} [Add N] [Sub N] [Mul N] [Div N] [Zero N]

/-- Rust `Evaluator::eval_special_symbol`: the eight reserved names and their
native atoms; any other name answers `none`. -/
def evalSpecialSymbol (symbol : String) : Option (Expr N) :=
  match symbol with
  | "begin" => some (.atom (.native .begin))
  | "define" => some (.atom (.native .define))
  | "function" => some (.atom (.native .function))
  | "quote" => some (.atom (.native .quote))
  | "+" => some (.atom (.native (.operator .add)))
  | "-" => some (.atom (.native (.operator .sub)))
  | "*" => some (.atom (.native (.operator .mul)))
  | "/" => some (.atom (.native (.operator .div)))
  | _ => none

/-- Rust `Evaluator::eval_symbol`: reserved names first, then the frame chain,
else `UndefinedSymbol`.  Reads the state, never changes it. -/
def evalSymbol (σ : EvalState N) (symbol : String) :
    Except EvalError (Expr N) :=
  match evalSpecialSymbol (N := N) symbol with
  | some e => .ok e
  | none =>
    match σ.lookup σ.current symbol with
    | some e => .ok e
    | none => .error (.UndefinedSymbol symbol)

/-- Rust `Evaluator::eval_atom`: a symbol resolves via `evalSymbol`; every other
atom evaluates to itself. -/
def evalAtom (σ : EvalState N) (a : Atom N) : Res N (Expr N) :=
  match a with
  | .symbol s => (σ, some (evalSymbol σ s))
  | a => (σ, some (.ok (.atom a)))

/-- Rust `Evaluator::as_symbol`. -/
def asSymbol (e : Expr N) : Except EvalError String :=
  match e with
  | .atom (.symbol s) => .ok s
  | _ => .error .InvalidType

/-- Rust `Evaluator::as_list`. -/
def asList (e : Expr N) : Except EvalError (SList N) :=
  match e with
  | .list l => .ok l
  | _ => .error .InvalidType

/-- Rust `Evaluator::as_number`. -/
def asNumber (e : Expr N) : Except EvalError N :=
  match e with
  | .atom (.number x) => .ok x
  | _ => .error .InvalidType

/-- The parameter-list check in `eval_call_function`: every element must be
a symbol, else `InvalidType`. -/
def symbolsOf (l : SList N) : Except EvalError (List String) :=
  match l with
  | .nil => .ok []
  | .cons h t => do
    let s ← asSymbol h
    let rest ← symbolsOf t
    .ok (s :: rest)

/-- Rust `Evaluator::eval_call_function`: exactly two operands; the first must be
a list of symbols, the second is the unevaluated body; the current frame is
captured by reference (its heap index). -/
def evalCallFunction (σ : EvalState N) (tail : SList N) : Res N (Expr N) :=
  match tail with
  | .cons ps (.cons body .nil) =>
    match asList ps with
    | .error err => (σ, some (.error err))
    | .ok l =>
      match symbolsOf l with
      | .error err => (σ, some (.error err))
      | .ok parameters =>
        (σ, some (.ok (.atom (.func (.mk σ.current parameters body)))))
  | _ => (σ, some (.error .WrongArity))

/-- Rust `Evaluator::eval_call_quote`: exactly one operand, returned as is. -/
def evalCallQuote (σ : EvalState N) (tail : SList N) : Res N (Expr N) :=
  match tail with
  | .cons e .nil => (σ, some (.ok e))
  | _ => (σ, some (.error .WrongArity))

mutual

/-- Rust `Evaluator::eval_expr`: dispatch on atom versus list. -/
def evalExpr (fuel : Nat) (σ : EvalState N) (e : Expr N) : Res N (Expr N) :=
  match fuel with
  | 0 => (σ, none)
  | f + 1 =>
    match e with
    | .atom a => evalAtom σ a
    | .list l => evalList f σ l
termination_by structural fuel

/-- Rust `Evaluator::eval_list`: `Nil` evaluates to itself; a `Cons` is an
application — evaluate the head, which must be a function or a native. -/
def evalList (fuel : Nat) (σ : EvalState N) (l : SList N) : Res N (Expr N) :=
  match fuel with
  | 0 => (σ, none)
  | f + 1 =>
    match l with
    | .nil => (σ, some (.ok (.list .nil)))
    | .cons head tail =>
      resBind (evalExpr f σ head) fun σ' h =>
        match h with
        | .atom (.func fn) => applyFunction f σ' fn tail
        | .atom (.native n) => evalCallNative f σ' n tail
        | _ => (σ', some (.error .NotCallable))
termination_by structural fuel

/-- Lines 52–75 of `eval_list`: the user-function application path.  The
arity check happens before any frame work; then a child of the captured
frame is installed as current, the parameters are bound left to right by
synthesised `define` calls, the body runs, and the caller's frame is
restored only after a successful body evaluation. -/
def applyFunction (fuel : Nat) (σ : EvalState N) (fn : Func N)
    (tail : SList N) : Res N (Expr N) :=
  if tail.length ≠ fn.parameters.length then (σ, some (.error .WrongArity))
  else
    match fuel with
    | 0 => (σ, none)
    | f + 1 =>
      let originalFrame := σ.current
      let σ1 := (σ.pushFrame fn.frame).1
      resBind (bindParams f σ1 (fn.parameters.zip tail.toList)) fun σ2 _ =>
        resBind (evalExpr f σ2 fn.body) fun σ3 v =>
          ({ σ3 with current := originalFrame }, some (.ok v))
termination_by structural fuel

/-- The `zip`/`map` over `eval_call_define` in `eval_list`: bind each
parameter to its argument expression by a synthesised two-element `define`
call, in order, each one running in the state the previous one produced. -/
def bindParams (fuel : Nat) (σ : EvalState N) (pairs : List (String × Expr N)) :
    Res N Unit :=
  match fuel with
  | 0 => (σ, none)
  | f + 1 =>
    match pairs with
    | [] => (σ, some (.ok ()))
    | (p, a) :: rest =>
      resBind (evalCallDefine f σ
          (.cons (.atom (.symbol p)) (.cons a .nil))) fun σ' _ =>
        bindParams f σ' rest
termination_by structural fuel

/-- Rust `Evaluator::eval_call_native`: dispatch on the native tag. -/
def evalCallNative (fuel : Nat) (σ : EvalState N) (n : Native)
    (tail : SList N) : Res N (Expr N) :=
  match fuel with
  | 0 => (σ, none)
  | f + 1 =>
    match n with
    | .begin => evalCallBegin f σ tail
    | .define => evalCallDefine f σ tail
    | .function => evalCallFunction σ tail
    | .quote => evalCallQuote σ tail
    | .operator op => evalCallOperator f σ op tail
termination_by structural fuel

/-- Rust `Evaluator::eval_call_begin`: at least one operand, evaluate them all in
order, answer the last value. -/
def evalCallBegin (fuel : Nat) (σ : EvalState N) (tail : SList N) :
    Res N (Expr N) :=
  match fuel with
  | 0 => (σ, none)
  | f + 1 =>
    match tail with
    | .nil => (σ, some (.error .WrongArity))
    | .cons h t => evalSeq f σ h t
termination_by structural fuel

/-- The left-to-right evaluation loop of `eval_call_begin`. -/
def evalSeq (fuel : Nat) (σ : EvalState N) (e : Expr N) (rest : SList N) :
    Res N (Expr N) :=
  match fuel with
  | 0 => (σ, none)
  | f + 1 =>
    resBind (evalExpr f σ e) fun σ' v =>
      match rest with
      | .nil => (σ', some (.ok v))
      | .cons h t => evalSeq f σ' h t
termination_by structural fuel

/-- Rust `Evaluator::eval_call_define`: exactly two operands; the first must be a
symbol literal (not evaluated), the second is evaluated, and the binding is
written into the current frame; answers the value. -/
def evalCallDefine (fuel : Nat) (σ : EvalState N) (tail : SList N) :
    Res N (Expr N) :=
  match tail with
  | .cons s (.cons e .nil) =>
    match asSymbol s with
    | .error err => (σ, some (.error err))
    | .ok symbol =>
      match fuel with
      | 0 => (σ, none)
      | f + 1 =>
        resBind (evalExpr f σ e) fun σ' v =>
          (σ'.setCurrent symbol v, some (.ok v))
  | _ => (σ, some (.error .WrongArity))
termination_by structural fuel

/-- Rust `Evaluator::eval_call_operator`: with any operand count other than two
the call answers `Number(0.0)` at once; otherwise both operands are
evaluated in order, both must be numbers, and the operator is applied. -/
def evalCallOperator (fuel : Nat) (σ : EvalState N) (op : Operator)
    (tail : SList N) : Res N (Expr N) :=
  match tail with
  | .cons l (.cons r .nil) =>
    match fuel with
    | 0 => (σ, none)
    | f + 1 =>
      resBind (evalExpr f σ l) fun σ1 lv =>
        resBind (evalExpr f σ1 r) fun σ2 rv =>
          match asNumber lv with
          | .error err => (σ2, some (.error err))
          | .ok left =>
            match asNumber rv with
            | .error err => (σ2, some (.error err))
            | .ok right =>
              let result :=
                match op with
                | .add => left + right
                | .sub => left - right
                | .mul => left * right
                | .div => left / right
              (σ2, some (.ok (.atom (.number result))))
  | _ => (σ, some (.ok (.atom (.number (0 : N)))))
termination_by structural fuel

end

/-- Rust `eval`: a fresh evaluator owns a single fresh global frame. -/
def initState : EvalState N := ⟨[Frame.new], 0⟩

/-- Top-level `eval(expr)`: run on a fresh evaluator state. -/
def eval (fuel : Nat) (e : Expr N) : Res N (Expr N) :=
  evalExpr fuel (initState (N := N)) e

end Evaluator

/-! ## Convenience constructors for writing programs in theorem statements -/

/-- Shorthand for a symbol expression. -/
def sym {N : Type} (s : String) : Expr N := .atom (.symbol s)

/-- Shorthand for a number expression. -/
def num {N : Type} (x : N) : Expr N := .atom (.number x)

/-- Build an `SList` from an ordered sequence. -/
def slistOf {N : Type} : List (Expr N) → SList N
  | [] => .nil
  | e :: es => .cons e (slistOf es)

/-- Build a call expression `(e₁ e₂ …)` from an ordered sequence. -/
def callE {N : Type} (es : List (Expr N)) : Expr N := .list (slistOf es)

section Theorems

/-- An expression that is not a `Number` atom fails `as_number` with
`InvalidType`. -/
theorem asNumber_of_not_number {N : Type} (v : Expr N) (h : ∀ x : N, v ≠ .atom (.number x)) :
    asNumber v = .error .InvalidType := by
  cases v with
  | atom a =>
    cases a with
    | number x => exact absurd rfl (h x)
    | symbol s => rfl
    | func fn => rfl
    | native n => rfl
  | list l => rfl

/-- C7: evaluating `(quote X)` — a `quote` call with exactly one operand —
returns `X` itself, structurally identical, with no sub-evaluation of `X`
and no change to the evaluator state, for every expression `X` (nested
lists, unbound or reserved symbols included) and every state. -/
theorem quote_returns_operand_unevaluated {N : Type} [Add N] [Sub N] [Mul N]
    [Div N] [Zero N] (f : Nat) (σ : EvalState N)
    (X : Expr N) :
    evalExpr (f + 3) σ (callE [sym "quote", X]) = (σ, some (.ok X)) := rfl

/-- C4: an arithmetic operator applied to an operand list whose length is
not exactly 2 (zero operands included) answers `Number(0.0)` successfully
rather than an error. -/
theorem operator_nonbinary_returns_zero {N : Type} [Add N] [Sub N] [Mul N]
    [Div N] [Zero N] (fuel : Nat) (σ : EvalState N)
    (op : Operator) (tail : SList N) (h : tail.length ≠ 2) :
    (evalCallOperator fuel σ op tail).2 = some (.ok (num (0 : N))) := by
  cases tail with
  | nil => cases fuel <;> rfl
  | cons a t =>
    cases t with
    | nil => cases fuel <;> rfl
    | cons b t2 =>
      cases t2 with
      | nil => exact absurd rfl h
      | cons c t3 => cases fuel <;> rfl

/-- C4 witness: `(+ 1)` has one operand, and the call answers `0.0`. -/
theorem operator_nonbinary_returns_zero_witness :
    SList.length (N := ℤ) (.cons (num 1) .nil) ≠ 2 ∧
      (evalCallOperator 5 (initState (N := ℤ)) .add
        (.cons (num 1) .nil)).2 = some (.ok (num (0 : ℤ))) :=
  ⟨by decide,
   operator_nonbinary_returns_zero 5 initState .add (.cons (num 1) .nil)
     (by decide)⟩

/-- C9: an arithmetic operator applied to an operand list whose length is
not exactly 2 evaluates no operand at all: the state (frames and bindings
included) is returned unchanged and the call succeeds with `Number(0.0)`,
even when an operand would fail to evaluate or is a `define` form. -/
theorem operator_nonbinary_evaluates_nothing {N : Type} [Add N] [Sub N]
    [Mul N] [Div N] [Zero N] (fuel : Nat) (σ : EvalState N)
    (op : Operator) (tail : SList N) (h : tail.length ≠ 2) :
    evalCallOperator fuel σ op tail = (σ, some (.ok (num (0 : N)))) := by
  cases tail with
  | nil => cases fuel <;> rfl
  | cons a t =>
    cases t with
    | nil => cases fuel <;> rfl
    | cons b t2 =>
      cases t2 with
      | nil => exact absurd rfl h
      | cons c t3 => cases fuel <;> rfl

/-- C9 witness: `(+ (define z 5))` answers `0.0` with the state unchanged —
the `define` operand is not evaluated, so `z` stays unbound afterwards —
and `(+ zzz)` with `zzz` unbound also answers `0.0` instead of failing. -/
theorem operator_nonbinary_evaluates_nothing_witness :
    (SList.length (N := ℤ) (.cons (callE [sym "define", sym "z", num 5]) .nil) ≠ 2 ∧
      evalCallOperator 9 (initState (N := ℤ)) .add
        (.cons (callE [sym "define", sym "z", num 5]) .nil)
        = (initState, some (.ok (num 0)))) ∧
    evalSymbol (initState (N := ℤ)) "z" = .error (.UndefinedSymbol "z") ∧
    (evalCallOperator 9 (initState (N := ℤ)) .add
        (.cons (sym "zzz") .nil)).2 = some (.ok (num 0)) :=
  ⟨⟨by decide,
    operator_nonbinary_evaluates_nothing 9 initState .add
      (.cons (callE [sym "define", sym "z", num 5]) .nil) (by decide)⟩,
   by decide, by decide⟩

/-- C3: each of the eight reserved names evaluates to its `Native` atom with
no frame lookup: the result does not depend on the state, so no user binding
of the name in any reachable frame can shadow it. -/
theorem reserved_names_resolve_before_frames {N : Type} (σ : EvalState N) (s : String)
    (nt : Native)
    (h : (s, nt) ∈ [("begin", Native.begin), ("define", Native.define),
      ("function", Native.function), ("quote", Native.quote),
      ("+", Native.operator .add), ("-", Native.operator .sub),
      ("*", Native.operator .mul), ("/", Native.operator .div)]) :
    evalSymbol σ s = .ok (.atom (.native nt)) := by
  simp only [List.mem_cons, List.not_mem_nil, or_false, Prod.mk.injEq] at h
  rcases h with h | h | h | h | h | h | h | h <;>
    obtain ⟨rfl, rfl⟩ := h <;> rfl

/-- C3 witness: even in a state where the user has bound `+` (the outcome of
`(define + 100)`), the symbol `+` still evaluates to the native operator,
and `(+ 1 2)` still yields `3.0`: end to end,
`(begin (define + 100) (+ 1 2))` evaluates to `3.0`. -/
theorem reserved_names_resolve_before_frames_witness :
    evalSymbol (⟨[⟨[("+", num 100)], none⟩], 0⟩ : EvalState ℤ) "+"
        = .ok (.atom (.native (.operator .add))) ∧
      (eval 30 (callE [sym "begin", callE [sym "define", sym "+", num 100],
          callE [sym "+", num (1 : ℤ), num 2]])).2 = some (.ok (num 3)) :=
  ⟨reserved_names_resolve_before_frames ⟨[⟨[("+", num 100)], none⟩], 0⟩ "+"
      (.operator .add) (by decide),
   by decide⟩

/-- Unfolding `applyFunction` at positive fuel when the arity check passes:
save the caller's frame, install the child of the captured frame, bind the
parameters, evaluate the body, and restore the caller's frame on the success
path of both stages. -/
theorem applyFunction_succ {N : Type} [Add N] [Sub N] [Mul N] [Div N]
    [Zero N] (f : Nat) (σ : EvalState N) (fn : Func N) (tail : SList N)
    (h : tail.length = fn.parameters.length) :
    applyFunction (f + 1) σ fn tail =
      resBind (bindParams f (σ.pushFrame fn.frame).1
          (fn.parameters.zip tail.toList)) (fun σ2 _ =>
        resBind (evalExpr f σ2 fn.body) fun σ3 v =>
          ({ σ3 with current := σ.current }, some (.ok v))) := by
  unfold applyFunction
  rw [if_neg (not_not_intro h)]

/-- C8: a user-function application whose argument count differs from the
function's parameter count fails with `WrongArity` (before any frame is
created or any argument is evaluated: even the state is untouched). -/
theorem call_arity_mismatch_fails {N : Type} [Add N] [Sub N] [Mul N] [Div N]
    [Zero N] (fuel : Nat) (σ : EvalState N) (fn : Func N) (tail : SList N)
    (h : tail.length ≠ fn.parameters.length) :
    applyFunction fuel σ fn tail = (σ, some (.error .WrongArity)) := by
  unfold applyFunction
  rw [if_pos h]

/-- C8 witness: a function of two parameters called with one argument and
with three arguments fails `WrongArity` both times; end to end,
`(begin (define f (function (x y) (+ x y))) (f 1))` fails `WrongArity`. -/
theorem call_arity_mismatch_fails_witness :
    (SList.length (N := ℤ) (.cons (num 1) .nil) ≠ 2 ∧
      applyFunction 20 (⟨[⟨[], none⟩], 0⟩ : EvalState ℤ)
        (Func.mk 0 ["x", "y"] (callE [sym "+", sym "x", sym "y"]))
        (.cons (num 1) .nil) = (⟨[⟨[], none⟩], 0⟩, some (.error .WrongArity))) ∧
    (SList.length (N := ℤ) (.cons (num 1) (.cons (num 2) (.cons (num 3) .nil))) ≠ 2 ∧
      applyFunction 20 (⟨[⟨[], none⟩], 0⟩ : EvalState ℤ)
        (Func.mk 0 ["x", "y"] (callE [sym "+", sym "x", sym "y"]))
        (.cons (num 1) (.cons (num 2) (.cons (num 3) .nil)))
        = (⟨[⟨[], none⟩], 0⟩, some (.error .WrongArity))) ∧
    (eval (N := ℤ) 30 (callE [sym "begin",
        callE [sym "define", sym "f",
          callE [sym "function", .list (slistOf [sym "x", sym "y"]),
            callE [sym "+", sym "x", sym "y"]]],
        callE [sym "f", num 1]])).2 = some (.error .WrongArity) :=
  ⟨⟨by decide,
    call_arity_mismatch_fails 20 ⟨[⟨[], none⟩], 0⟩
      (Func.mk 0 ["x", "y"] (callE [sym "+", sym "x", sym "y"]))
      (.cons (num 1) .nil) (by decide)⟩,
   ⟨by decide,
    call_arity_mismatch_fails 20 ⟨[⟨[], none⟩], 0⟩
      (Func.mk 0 ["x", "y"] (callE [sym "+", sym "x", sym "y"]))
      (.cons (num 1) (.cons (num 2) (.cons (num 3) .nil))) (by decide)⟩,
   by decide⟩

/-- C6: an operator call with exactly two operands evaluates both, in
order (the second in the state the first produced); when both evaluate to
numbers the result is `Number(left op right)` with `Add = +`, `Sub = -`,
`Mul = *`, `Div = /` over the number carrier (for IEEE doubles this is the
float arithmetic, and division is total — a zero divisor still succeeds);
when either evaluated operand is not a number, the call fails
`InvalidType`. -/
theorem operator_binary_semantics {N : Type} [Add N] [Sub N] [Mul N] [Div N]
    [Zero N] (f : Nat) (σ σ1 σ2 : EvalState N) (e1 e2 v1 v2 : Expr N)
    (op : Operator)
    (h1 : evalExpr f σ e1 = (σ1, some (.ok v1)))
    (h2 : evalExpr f σ1 e2 = (σ2, some (.ok v2))) :
    (∀ x y : N, v1 = num x → v2 = num y →
      evalCallOperator (f + 1) σ op (.cons e1 (.cons e2 .nil)) =
        (σ2, some (.ok (num (match op with
          | .add => x + y
          | .sub => x - y
          | .mul => x * y
          | .div => x / y))))) ∧
    ((∀ x : N, v1 ≠ num x) →
      evalCallOperator (f + 1) σ op (.cons e1 (.cons e2 .nil)) =
        (σ2, some (.error .InvalidType))) ∧
    (∀ x : N, v1 = num x → (∀ y : N, v2 ≠ num y) →
      evalCallOperator (f + 1) σ op (.cons e1 (.cons e2 .nil)) =
        (σ2, some (.error .InvalidType))) := by
  have h0 : evalCallOperator (f + 1) σ op (.cons e1 (.cons e2 .nil)) =
      resBind (evalExpr f σ e1) fun s lv =>
        resBind (evalExpr f s e2) fun t rv =>
          match asNumber lv with
          | .error err => (t, some (.error err))
          | .ok left =>
            match asNumber rv with
            | .error err => (t, some (.error err))
            | .ok right =>
              (t, some (.ok (.atom (.number (match op with
                | .add => left + right
                | .sub => left - right
                | .mul => left * right
                | .div => left / right))))) := rfl
  refine ⟨?_, ?_, ?_⟩
  · intro x y hx hy
    subst hx; subst hy
    rw [h0, h1]
    simp only [resBind]
    rw [h2]
    rfl
  · intro hne
    rw [h0, h1]
    simp only [resBind]
    rw [h2]
    simp only [resBind]
    rw [asNumber_of_not_number v1 (by simpa [num] using hne)]
  · intro x hx hne
    subst hx
    rw [h0, h1]
    simp only [resBind]
    rw [h2]
    simp only [resBind]
    rw [asNumber_of_not_number v2 (by simpa [num] using hne)]
    rfl

/-- C6 witness: `(+ 1 2)` answers `3.0`; `(/ 4 0)` still succeeds (total
division on the carrier; infinities for IEEE doubles); `(+ 1 ())` fails
`InvalidType` because the second operand is not a number. -/
theorem operator_binary_semantics_witness :
    evalCallOperator 6 (initState (N := ℤ)) .add
        (.cons (num 1) (.cons (num 2) .nil))
        = (initState, some (.ok (num 3))) ∧
    evalCallOperator 6 (initState (N := ℤ)) .div
        (.cons (num 4) (.cons (num 0) .nil))
        = (initState, some (.ok (num (4 / 0)))) ∧
    evalCallOperator 6 (initState (N := ℤ)) .add
        (.cons (num 1) (.cons (.list .nil) .nil))
        = (initState, some (.error .InvalidType)) :=
  ⟨(operator_binary_semantics 5 initState initState initState
      (num 1) (num 2) (num 1) (num 2) .add rfl rfl).1 1 2 rfl rfl,
   (operator_binary_semantics 5 initState initState initState
      (num 4) (num 0) (num 4) (num 0) .div rfl rfl).1 4 0 rfl rfl,
   (operator_binary_semantics 5 initState initState initState
      (num 1) (.list .nil) (num 1) (.list .nil) .add rfl rfl).2.2 1 rfl
     (fun _ h => Expr.noConfusion h)⟩

/-- C5: when parameter binding and body evaluation both succeed, the
evaluator's current frame after the call is exactly the frame that was
current before the call (the call frame is discarded from the current
pointer; only the heap keeps it). -/
theorem call_frame_restored_on_success {N : Type} [Add N] [Sub N] [Mul N]
    [Div N] [Zero N] (f : Nat) (σ σ2 σ3 : EvalState N) (fn : Func N)
    (tail : SList N) (v : Expr N)
    (harity : tail.length = fn.parameters.length)
    (hbind : bindParams f (σ.pushFrame fn.frame).1
      (fn.parameters.zip tail.toList) = (σ2, some (.ok ())))
    (hbody : evalExpr f σ2 fn.body = (σ3, some (.ok v))) :
    applyFunction (f + 1) σ fn tail =
      ({ σ3 with current := σ.current }, some (.ok v)) := by
  rw [applyFunction_succ f σ fn tail harity, hbind]
  simp only [resBind, hbody]

/-- C5 witness: the claim's own scenario.  With
`f = (function (x) (begin (define y 99) (+ x y)))` bound at top level, the
call `(f 1)` succeeds with `100.0` and restores the current frame to the
global frame, and evaluating `y` afterwards fails `UndefinedSymbol` — the
call frame holding `y` is no longer reachable from the current frame.  The
last three conjuncts run the whole session end to end through `eval`. -/
theorem call_frame_restored_on_success_witness :
    applyFunction 21
        (⟨[⟨[("f", .atom (.func (Func.mk 0 ["x"] (callE [sym "begin",
            callE [sym "define", sym "y", num 99],
            callE [sym "+", sym "x", sym "y"]]))))], none⟩], 0⟩ : EvalState ℤ)
        (Func.mk 0 ["x"] (callE [sym "begin",
            callE [sym "define", sym "y", num 99],
            callE [sym "+", sym "x", sym "y"]]))
        (.cons (num 1) .nil)
      = (⟨[⟨[("f", .atom (.func (Func.mk 0 ["x"] (callE [sym "begin",
            callE [sym "define", sym "y", num 99],
            callE [sym "+", sym "x", sym "y"]]))))], none⟩,
          ⟨[("y", num 99), ("x", num 1)], some 0⟩], 0⟩,
         some (.ok (num 100))) ∧
    evalSymbol (⟨[⟨[("f", .atom (.func (Func.mk 0 ["x"] (callE [sym "begin",
            callE [sym "define", sym "y", num 99],
            callE [sym "+", sym "x", sym "y"]]))))], none⟩,
          ⟨[("y", num 99), ("x", num 1)], some 0⟩], 0⟩ : EvalState ℤ) "y"
        = .error (.UndefinedSymbol "y") ∧
    (eval (N := ℤ) 30 (callE [sym "begin",
        callE [sym "define", sym "f", callE [sym "function",
          .list (slistOf [sym "x"]), callE [sym "begin",
            callE [sym "define", sym "y", num 99],
            callE [sym "+", sym "x", sym "y"]]]],
        callE [sym "f", num 1]])).2 = some (.ok (num 100)) ∧
    (eval (N := ℤ) 30 (callE [sym "begin",
        callE [sym "define", sym "f", callE [sym "function",
          .list (slistOf [sym "x"]), callE [sym "begin",
            callE [sym "define", sym "y", num 99],
            callE [sym "+", sym "x", sym "y"]]]],
        callE [sym "f", num 1]])).1.current = 0 ∧
    evalSymbol (eval (N := ℤ) 30 (callE [sym "begin",
        callE [sym "define", sym "f", callE [sym "function",
          .list (slistOf [sym "x"]), callE [sym "begin",
            callE [sym "define", sym "y", num 99],
            callE [sym "+", sym "x", sym "y"]]]],
        callE [sym "f", num 1]])).1 "y" = .error (.UndefinedSymbol "y") :=
  ⟨call_frame_restored_on_success 20
      ⟨[⟨[("f", .atom (.func (Func.mk 0 ["x"] (callE [sym "begin",
          callE [sym "define", sym "y", num 99],
          callE [sym "+", sym "x", sym "y"]]))))], none⟩], 0⟩
      ⟨[⟨[("f", .atom (.func (Func.mk 0 ["x"] (callE [sym "begin",
          callE [sym "define", sym "y", num 99],
          callE [sym "+", sym "x", sym "y"]]))))], none⟩,
        ⟨[("x", num 1)], some 0⟩], 1⟩
      ⟨[⟨[("f", .atom (.func (Func.mk 0 ["x"] (callE [sym "begin",
          callE [sym "define", sym "y", num 99],
          callE [sym "+", sym "x", sym "y"]]))))], none⟩,
        ⟨[("y", num 99), ("x", num 1)], some 0⟩], 1⟩
      (Func.mk 0 ["x"] (callE [sym "begin",
          callE [sym "define", sym "y", num 99],
          callE [sym "+", sym "x", sym "y"]]))
      (.cons (num 1) .nil) (num 100) (by decide) (by decide) (by decide),
   by decide, by decide, by decide, by decide⟩

/-- C2: a user-function application that passes the arity check first
installs a child frame whose parent is the function's captured frame, then
binds the parameters sequentially, evaluating each argument inside the frame
being built.  Here the heap is global frame 0, the function's captured frame
1 (binding `a ↦ m`, rest arbitrary), and the caller's frame 2 (contents
arbitrary — it may bind `a`, `x` or `y` to anything); the function is
`(function (x y) y)` capturing frame 1, called with arguments `a` and `x`.
The first argument `a` resolves through the child's parent chain
child → captured frame 1, never through the caller's frame 2 (lexical, not
dynamic, scoping); the second argument `x` resolves to the binding the
first parameter just received (let*-style sequential binding), so the call
answers `m` and the child frame (heap index 3) ends up with parent 1 — the
captured frame, not the caller's — and bindings `y ↦ m, x ↦ m`. -/
theorem call_binds_sequentially_in_child_of_captured_frame {N : Type}
    [Add N] [Sub N] [Mul N] [Div N] [Zero N] (f : Nat) (m : N)
    (bs0 bs2 bs1 : List (String × Expr N)) :
    applyFunction (f + 9)
        ⟨[⟨bs0, none⟩, ⟨("a", num m) :: bs2, some 0⟩, ⟨bs1, some 0⟩], 2⟩
        (Func.mk 1 ["x", "y"] (sym "y"))
        (.cons (sym "a") (.cons (sym "x") .nil)) =
      (⟨[⟨bs0, none⟩, ⟨("a", num m) :: bs2, some 0⟩, ⟨bs1, some 0⟩,
          ⟨[("y", num m), ("x", num m)], some 1⟩], 2⟩,
        some (.ok (num m))) := rfl

/-- C1 counterexample: the claim says that after *every* user-function
application whose body evaluation fails, the current frame is left as *the
callee's child frame*.  In the session
`(begin (define g (function () zzz)) (define f (function (a) (g))) (f 7))`
the application `(f 7)` is one whose body fails (with
`UndefinedSymbol "zzz"`), and its child frame is heap index 1 — the frame
`applyFunction` installed for it, recognisable by its binding `a ↦ 7` and
parent 0.  But after the failed call the current frame is index 2, the
child frame of the *inner* call to `g`, not `f`'s child frame: no frame is
restored anywhere on the failure path, so the current frame stays wherever
the innermost failure left it. -/
theorem body_failure_frame_not_callee_child_counterexample :
    eval (N := ℤ) 30 (callE [sym "begin",
        callE [sym "define", sym "g",
          callE [sym "function", .list .nil, sym "zzz"]],
        callE [sym "define", sym "f",
          callE [sym "function", .list (slistOf [sym "a"]), callE [sym "g"]]],
        callE [sym "f", num 7]]) =
      (⟨[⟨[("f", .atom (.func (Func.mk 0 ["a"] (callE [sym "g"])))),
           ("g", .atom (.func (Func.mk 0 [] (sym "zzz"))))], none⟩,
         ⟨[("a", num 7)], some 0⟩,
         ⟨[], some 0⟩], 2⟩,
       some (.error (.UndefinedSymbol "zzz"))) ∧
    (eval (N := ℤ) 30 (callE [sym "begin",
        callE [sym "define", sym "g",
          callE [sym "function", .list .nil, sym "zzz"]],
        callE [sym "define", sym "f",
          callE [sym "function", .list (slistOf [sym "a"]), callE [sym "g"]]],
        callE [sym "f", num 7]])).1.current ≠ 1 ∧
    (eval (N := ℤ) 30 (callE [sym "begin",
        callE [sym "define", sym "g",
          callE [sym "function", .list .nil, sym "zzz"]],
        callE [sym "define", sym "f",
          callE [sym "function", .list (slistOf [sym "a"]), callE [sym "g"]]],
        callE [sym "f", num 7]])).1.frames.get? 1
      = some ⟨[("a", num 7)], some 0⟩ :=
  ⟨by decide, by decide, by decide⟩

/-- C1 (amended): when the body evaluation of a user-function application
fails, the error propagates with the evaluator state exactly as the failed
body evaluation left it — the current frame is *not* restored to the
caller's frame.  In particular, whenever the failed body evaluation leaves
the current frame at the callee's child frame (the fresh heap index
`(σ.pushFrame fn.frame).2`), the current frame after the failed call is
that child frame, which differs from the caller's frame (for any valid
caller frame index). -/
theorem call_frame_not_restored_on_body_failure {N : Type} [Add N] [Sub N]
    [Mul N] [Div N] [Zero N] (f : Nat) (σ σ2 σ3 : EvalState N) (fn : Func N)
    (tail : SList N) (err : EvalError)
    (harity : tail.length = fn.parameters.length)
    (hbind : bindParams f (σ.pushFrame fn.frame).1
      (fn.parameters.zip tail.toList) = (σ2, some (.ok ())))
    (hbody : evalExpr f σ2 fn.body = (σ3, some (.error err))) :
    applyFunction (f + 1) σ fn tail = (σ3, some (.error err)) ∧
      (σ3.current = (σ.pushFrame fn.frame).2 →
        σ.current < σ.frames.length → σ3.current ≠ σ.current) := by
  constructor
  · rw [applyFunction_succ f σ fn tail harity, hbind]
    simp only [resBind]
    rw [hbody]
  · intro hc hv
    rw [hc]
    simp only [EvalState.pushFrame]
    omega

/-- C1 witness: `(function (x) zzz)` applied to `5` from the global frame:
parameter binding succeeds, the body fails `UndefinedSymbol "zzz"` with the
current frame still at the callee's child (index 1), and the failed call
leaves the current frame there — not at the caller's frame 0. -/
theorem call_frame_not_restored_on_body_failure_witness :
    applyFunction 21 (⟨[⟨[], none⟩], 0⟩ : EvalState ℤ)
        (Func.mk 0 ["x"] (sym "zzz")) (.cons (num 5) .nil)
      = (⟨[⟨[], none⟩, ⟨[("x", num 5)], some 0⟩], 1⟩,
         some (.error (.UndefinedSymbol "zzz"))) ∧
      (⟨[⟨[], none⟩, ⟨[("x", num 5)], some 0⟩], 1⟩ : EvalState ℤ).current
        ≠ (⟨[⟨[], none⟩], 0⟩ : EvalState ℤ).current := by
  have h := call_frame_not_restored_on_body_failure (N := ℤ) 20
    ⟨[⟨[], none⟩], 0⟩
    ⟨[⟨[], none⟩, ⟨[("x", num 5)], some 0⟩], 1⟩
    ⟨[⟨[], none⟩, ⟨[("x", num 5)], some 0⟩], 1⟩
    (Func.mk 0 ["x"] (sym "zzz")) (.cons (num 5) .nil)
    (.UndefinedSymbol "zzz") (by decide) (by decide) (by decide)
  exact ⟨h.1, h.2 (by decide) (by decide)⟩

/-- C10 counterexample: the claim says that after *every* user-function
application in which an argument expression fails during sequential
parameter binding, the current frame is left as *the callee's partially
populated child frame*.  In the session
`(begin (define g (function () zzz)) (define f (function (a b) 1)) (f 4 (g)))`
the application `(f 4 (g))` fails while binding `b`: evaluating the
argument `(g)` enters a further call whose body fails.  `f`'s partially
populated child frame is heap index 1 (it holds `a ↦ 4` and parent 0), but
after the failed call the current frame is index 2 — the child frame of
the inner call to `g` — because nothing on the failure path restores any
frame. -/
theorem binding_failure_frame_not_callee_child_counterexample :
    eval (N := ℤ) 30 (callE [sym "begin",
        callE [sym "define", sym "g",
          callE [sym "function", .list .nil, sym "zzz"]],
        callE [sym "define", sym "f",
          callE [sym "function", .list (slistOf [sym "a", sym "b"]), num 1]],
        callE [sym "f", num 4, callE [sym "g"]]]) =
      (⟨[⟨[("f", .atom (.func (Func.mk 0 ["a", "b"] (num 1)))),
           ("g", .atom (.func (Func.mk 0 [] (sym "zzz"))))], none⟩,
         ⟨[("a", num 4)], some 0⟩,
         ⟨[], some 0⟩], 2⟩,
       some (.error (.UndefinedSymbol "zzz"))) ∧
    (eval (N := ℤ) 30 (callE [sym "begin",
        callE [sym "define", sym "g",
          callE [sym "function", .list .nil, sym "zzz"]],
        callE [sym "define", sym "f",
          callE [sym "function", .list (slistOf [sym "a", sym "b"]), num 1]],
        callE [sym "f", num 4, callE [sym "g"]]])).1.current ≠ 1 ∧
    (eval (N := ℤ) 30 (callE [sym "begin",
        callE [sym "define", sym "g",
          callE [sym "function", .list .nil, sym "zzz"]],
        callE [sym "define", sym "f",
          callE [sym "function", .list (slistOf [sym "a", sym "b"]), num 1]],
        callE [sym "f", num 4, callE [sym "g"]]])).1.frames.get? 1
      = some ⟨[("a", num 4)], some 0⟩ :=
  ⟨by decide, by decide, by decide⟩

/-- C10 (amended): when sequential parameter binding of a user-function
application fails, the error propagates with the evaluator state exactly as
the failed binding left it — the current frame is *not* restored to the
caller's frame; the body is never evaluated.  In particular, whenever the
failed binding leaves the current frame at the callee's (partially
populated) child frame, the current frame after the failed call is that
child frame, which differs from the caller's frame (for any valid caller
frame index). -/
theorem call_frame_not_restored_on_binding_failure {N : Type} [Add N]
    [Sub N] [Mul N] [Div N] [Zero N] (f : Nat) (σ σ2 : EvalState N)
    (fn : Func N) (tail : SList N) (err : EvalError)
    (harity : tail.length = fn.parameters.length)
    (hbind : bindParams f (σ.pushFrame fn.frame).1
      (fn.parameters.zip tail.toList) = (σ2, some (.error err))) :
    applyFunction (f + 1) σ fn tail = (σ2, some (.error err)) ∧
      (σ2.current = (σ.pushFrame fn.frame).2 →
        σ.current < σ.frames.length → σ2.current ≠ σ.current) := by
  constructor
  · rw [applyFunction_succ f σ fn tail harity, hbind]
    rfl
  · intro hc hv
    rw [hc]
    simp only [EvalState.pushFrame]
    omega

/-- C10 witness: `(function (x) 1)` applied to the unbound symbol `zzz`
from the global frame: binding `x` fails `UndefinedSymbol "zzz"` with the
current frame at the callee's child (index 1, still empty — no parameter
bound yet), and the failed call leaves the current frame there — not at the
caller's frame 0. -/
theorem call_frame_not_restored_on_binding_failure_witness :
    applyFunction 21 (⟨[⟨[], none⟩], 0⟩ : EvalState ℤ)
        (Func.mk 0 ["x"] (num 1)) (.cons (sym "zzz") .nil)
      = (⟨[⟨[], none⟩, ⟨[], some 0⟩], 1⟩,
         some (.error (.UndefinedSymbol "zzz"))) ∧
      (⟨[⟨[], none⟩, ⟨[], some 0⟩], 1⟩ : EvalState ℤ).current
        ≠ (⟨[⟨[], none⟩], 0⟩ : EvalState ℤ).current := by
  have h := call_frame_not_restored_on_binding_failure (N := ℤ) 20
    ⟨[⟨[], none⟩], 0⟩
    ⟨[⟨[], none⟩, ⟨[], some 0⟩], 1⟩
    (Func.mk 0 ["x"] (num 1)) (.cons (sym "zzz") .nil)
    (.UndefinedSymbol "zzz") (by decide) (by decide)
  exact ⟨h.1, h.2 (by decide) (by decide)⟩

end Theorems

end Yu
